import Mathlib

/-
Verification of the training orchestrator in `selene_sdk/train_model.py`
(class `TrainModel`).  The definitions below are a shallow embedding of the
orchestrator's control logic: the external collaborators (model forward and
backward passes, sampler, scoring engine) are parameters (oracles), machine
floats are modelled by rationals, Python `float("inf")` by `none`, and the
Python exceptions the control flow can raise are explicit values.
-/

namespace Selene

/-- Python runtime errors that the embedded code can raise. -/
inductive PyErr
  | attributeError
  | keyError
  | zeroDivisionError
deriving DecidableEq

/-- The `valid_scores` dictionary returned by `validate` (train_model.py
lines 438-462): the key `loss` is always set (line 461); the key
`roc_auc` may be present (`some v`) or absent (`none`), depending on the
external scoring collaborator. -/
structure Report where
  loss : ℚ
  roc_auc : Option ℚ
deriving DecidableEq

/-- Python `validation_loss < min_loss` (line 334) where `min_loss` may be
`float("inf")`, modelled as `none`. -/
def ltInf (v : ℚ) (m : Option ℚ) : Bool :=
  match m with
  | none => true
  | some x => decide (v < x)

/-- Python `min(validation_loss, min_loss)` (line 335): `min(a, b)` returns
`a` exactly when `a < b`, else `b`. -/
def minInf (v : ℚ) (m : Option ℚ) : Option ℚ :=
  if ltInf v m then some v else m

/-- The value handed to `scheduler.step` at line 329:
`math.ceil(validation_roc_auc * 1000.0) / 1000.0`. -/
def schedArg (v : ℚ) : ℚ :=
  ((⌈v * 1000⌉ : ℤ) : ℚ) / 1000

/-- Quantization in the words of the spec, which says the monitored score is
"rounded to 3 decimal digits" before comparison: rounding to the nearest
multiple of 1/1000.  Kept separate from `schedArg`, which embeds the
source expression, so the two can be compared. -/
def specRound3 (v : ℚ) : ℚ :=
  ((round (v * 1000) : ℤ) : ℚ) / 1000

/-- Configuration of the `ReduceLROnPlateau` scheduler as constructed at
lines 311-313: `ReduceLROnPlateau(self.optimizer, 'max', patience=16,
verbose=True, factor=0.8)`. -/
structure SchedulerConfig where
  mode : String
  patience : ℕ
  factor : ℚ

/-- The scheduler construction at lines 311-313. -/
def plateauScheduler : SchedulerConfig :=
  { mode := "max", patience := 16, factor := 8/10 }

/-- A resume checkpoint as read by `torch.load` at line 197, restricted to
the scalar fields the constructor consumes (`state_dict` and `optimizer`
are opaque external state and are omitted). -/
structure Checkpoint where
  step : ℤ
  min_loss : ℚ

/-- The orchestrator configuration attributes assigned by
`TrainModel.__init__`. -/
structure TrainModel where
  batch_size : ℤ
  max_steps : ℤ
  nth_step_report_stats : ℤ
  nth_step_save_checkpoint : ℤ
  start_step : ℤ
  min_loss : Option ℚ
deriving DecidableEq

/-- Embeds `TrainModel.__init__` (lines 123-229), restricted to the
orchestrator configuration state.  No parameter is validated anywhere in
the constructor.  The checkpoint-cadence default (lines 154-158) replaces
a falsy `save_checkpoint_every_n_steps` (Python `None`, modelled `none`,
or `0`) by `report_stats_every_n_steps`.  When `checkpoint_resume` is
supplied, line 205 evaluates `self._start_step >= self.max_step`; the
attribute `max_step` is never assigned anywhere in the class (line 152
assigns `max_steps`), so Python raises `AttributeError` before any resume
field takes effect. -/
def TrainModel.init (batch_size max_steps report_stats_every_n_steps : ℤ)
    (save_checkpoint_every_n_steps : Option ℤ)
    (checkpoint_resume : Option Checkpoint) : Except PyErr TrainModel :=
  let nth_ckpt : ℤ :=
    match save_checkpoint_every_n_steps with
    | none => report_stats_every_n_steps
    | some c => if c = 0 then report_stats_every_n_steps else c
  match checkpoint_resume with
  | none =>
      .ok { batch_size := batch_size, max_steps := max_steps,
            nth_step_report_stats := report_stats_every_n_steps,
            nth_step_save_checkpoint := nth_ckpt,
            start_step := 0, min_loss := none }
  | some _ => .error .attributeError

/-- Observable actions of one run of `train_and_validate`, in program
order.  `validLog s l a` is the line written to the validation metrics
sink at step `s` (`a = none` is the `NA` sentinel, line 331); `saveCkpt`
records the `min_loss` field of the persisted snapshot and its `is_best`
tag. -/
inductive Event
  | setTrainMode (step : ℕ)
  | sampleBatch (step : ℕ)
  | zeroGrad (step : ℕ)
  | backward (step : ℕ)
  | optStep (step : ℕ)
  | trainReturn (step : ℕ) (loss : ℚ)
  | validatePass (step : ℕ)
  | trainLog (step : ℕ) (loss : ℚ)
  | validLog (step : ℕ) (loss : ℚ) (auc : Option ℚ)
  | schedStep (step : ℕ) (value : ℚ)
  | saveCkpt (step : ℕ) (min_loss : Option ℚ) (is_best : Bool)
  | finalizeSampler
deriving DecidableEq

/-- Embeds `TrainModel.train` (lines 360-392): one mode switch, one batch
fetch, one `zero_grad`, one backward pass, exactly one `optimizer.step()`,
and the scalar loss returned (the numeric value is the oracle `tl`). -/
def trainEvents (tl : ℕ → ℚ) (step : ℕ) : List Event :=
  [.setTrainMode step, .sampleBatch step, .zeroGrad step, .backward step,
   .optStep step, .trainReturn step (tl step)]

/-- Embeds the reporting branch of `train_and_validate` (lines 319-347),
given the current step, the training loss returned at line 315, the
report produced by `validate`, and the current `min_loss`.  Line 323
subscripts `valid_scores["roc_auc"]`: an absent key raises `KeyError`
before any logging of the metric or checkpointing happens.  A present
falsy value (`0`) takes the `NA` branch (line 331).  Returns the emitted
events, the updated `min_loss`, and the escaping exception if any. -/
def reportBranch (step : ℕ) (train_loss : ℚ) (r : Report) (m : Option ℚ) :
    List Event × Option ℚ × Option PyErr :=
  match r.roc_auc with
  | none => ([.validatePass step, .trainLog step train_loss], m, some .keyError)
  | some v =>
    let logged : List Event :=
      if v = 0 then [.validLog step r.loss none]
      else [.validLog step r.loss (some v), .schedStep step (schedArg v)]
    ([.validatePass step, .trainLog step train_loss] ++ logged ++
       [.saveCkpt step (minInf r.loss m) (ltInf r.loss m)],
     minInf r.loss m, none)

/-- Embeds the periodic-checkpoint branch (lines 351-357):
`if step % self.nth_step_save_checkpoint == 0`, a write never tagged
best.  A zero cadence raises `ZeroDivisionError` at the modulus. -/
def ckptBranch (nc step : ℕ) (acc : List Event) (m : Option ℚ) :
    List Event × Option ℚ × Option PyErr :=
  if nc = 0 then (acc, m, some .zeroDivisionError)
  else if step % nc = 0 then (acc ++ [.saveCkpt step m false], m, none)
  else (acc, m, none)

/-- Sequencing of the reporting branch result `b` with the subsequent
periodic-checkpoint branch: an exception raised inside the reporting
branch skips the rest of the iteration. -/
def afterReport (nc step : ℕ) (tevs : List Event)
    (b : List Event × Option ℚ × Option PyErr) :
    List Event × Option ℚ × Option PyErr :=
  match b.2.2 with
  | some err => (tevs ++ b.1, b.2.1, some err)
  | none => ckptBranch nc step (tevs ++ b.1) b.2.1

/-- One iteration of the `for step in range(...)` loop (lines 314-357):
always one training step first; then the reporting branch when
`step and step % nth_step_report_stats == 0` (Python `and`
short-circuits, so `step = 0` skips the modulus); then the periodic
checkpoint branch. -/
def loopBody (nr nc : ℕ) (tl : ℕ → ℚ) (reports : ℕ → Report)
    (step : ℕ) (m : Option ℚ) : List Event × Option ℚ × Option PyErr :=
  let tevs := trainEvents tl step
  if step = 0 then ckptBranch nc step tevs m
  else if nr = 0 then (tevs, m, some .zeroDivisionError)
  else if step % nr = 0 then
    afterReport nc step tevs (reportBranch step (tl step) (reports step) m)
  else ckptBranch nc step tevs m

/-- Runs the loop over an explicit list of step indices, threading
`min_loss` and aborting on the first escaping exception (the events
emitted before the exception are kept). -/
def runSteps (nr nc : ℕ) (tl : ℕ → ℚ) (reports : ℕ → Report) :
    List ℕ → Option ℚ → List Event × Option ℚ × Option PyErr
  | [], m => ([], m, none)
  | step :: rest, m =>
    let b := loopBody nr nc tl reports step m
    match b.2.2 with
    | some err => (b.1, b.2.1, some err)
    | none =>
      let r := runSteps nr nc tl reports rest b.2.1
      (b.1 ++ r.1, r.2.1, r.2.2)

/-- Embeds `train_and_validate` (lines 301-358): drives
`range(self._start_step, self.max_steps)` and, when the loop completes,
finalizes the sampler's train partition (line 358). -/
def train_and_validate (startStep maxSteps nr nc : ℕ) (tl : ℕ → ℚ)
    (reports : ℕ → Report) (minLoss0 : Option ℚ) :
    List Event × Option ℚ × Option PyErr :=
  let r := runSteps nr nc tl reports
    (List.range' startStep (maxSteps - startStep)) minLoss0
  match r.2.2 with
  | none => (r.1 ++ [.finalizeSampler], r.2.1, none)
  | some e => (r.1, r.2.1, some e)

/-- The loop of `_evaluate_on_data` (lines 415-434): iterates the batch
set in its given order, collecting per-batch losses and per-batch
prediction blocks in that order.  The model forward pass and the loss
criterion are oracles. -/
def evaluateLoop {ι τ ρ : Type} (model : ι → List ρ)
    (criterion : List ρ → τ → ℚ) :
    List (ι × τ) → List ℚ × List (List ρ)
  | [] => ([], [])
  | (inputs, targets) :: rest =>
    let predictions := model inputs
    let loss := criterion predictions targets
    let r := evaluateLoop model criterion rest
    (loss :: r.1, predictions :: r.2)

/-- Embeds `_evaluate_on_data` (lines 394-436): after the loop,
`np.vstack(all_predictions)` stacks the per-batch blocks in order and
`np.average(batch_losses)` takes the plain mean.  On an empty batch list
`np.vstack` raises (`none`). -/
def evaluate_on_data {ι τ ρ : Type} (model : ι → List ρ)
    (criterion : List ρ → τ → ℚ) (data_in_batches : List (ι × τ)) :
    Option (ℚ × List ρ) :=
  match data_in_batches with
  | [] => none
  | _ :: _ =>
    let r := evaluateLoop model criterion data_in_batches
    some (r.1.sum / (r.1.length : ℚ), r.2.flatten)

/-- Extracts the step of a periodic or best checkpoint write. -/
def ckptOf : Event → Option (ℕ × Option ℚ × Bool)
  | .saveCkpt s m b => some (s, m, b)
  | _ => none

/-- Extracts the step of a validation pass. -/
def valOf : Event → Option ℕ
  | .validatePass s => some s
  | _ => none

/-- Extracts the step of a train-log line. -/
def tlogOf : Event → Option ℕ
  | .trainLog s _ => some s
  | _ => none

/-- Extracts the step of a validation-log line. -/
def vlogOf : Event → Option ℕ
  | .validLog s _ _ => some s
  | _ => none

/-- Extracts the step of an optimizer update. -/
def optOf : Event → Option ℕ
  | .optStep s => some s
  | _ => none

/-- Extracts the loss returned by a training step. -/
def lossOf : Event → Option ℚ
  | .trainReturn _ l => some l
  | _ => none

/-- Extracts a scheduler step with its argument. -/
def schedOf : Event → Option (ℕ × ℚ)
  | .schedStep s v => some (s, v)
  | _ => none

/-- Extracts the step of a best-tagged checkpoint write. -/
def bestOf : Event → Option ℕ
  | .saveCkpt s _ true => some s
  | _ => none

/-- The successive `min_loss` values written to the best-checkpoint slot
(`shutil.copyfile` at lines 529-533 runs exactly for best-tagged
writes). -/
def bestWrites (evs : List Event) : List (Option ℚ) :=
  evs.filterMap fun e =>
    match e with
    | .saveCkpt _ ml true => some ml
    | _ => none

/-- Strict order on `min_loss` values with `none` as positive infinity. -/
def oltB : Option ℚ → Option ℚ → Bool
  | some a, some b => decide (a < b)
  | some _, none => true
  | none, _ => false

/-- Reflexive order on `min_loss` values with `none` as positive
infinity. -/
def oleB : Option ℚ → Option ℚ → Bool
  | _, none => true
  | none, some _ => false
  | some a, some b => decide (a ≤ b)

/-- Any event of the checkpoint branch is either from the accumulated
prefix or the periodic (never best-tagged) write. -/
lemma mem_ckptBranch_events {e : Event} {nc step : ℕ} {acc : List Event}
    {m : Option ℚ} (h : e ∈ (ckptBranch nc step acc m).1) :
    e ∈ acc ∨ e = .saveCkpt step m false := by
  unfold ckptBranch at h
  split at h
  · exact Or.inl h
  · split at h
    · rcases List.mem_append.1 h with h1 | h1
      · exact Or.inl h1
      · simp only [List.mem_singleton] at h1
        exact Or.inr h1
    · exact Or.inl h

lemma mem_afterReport_events {e : Event} {nc step : ℕ} {tevs : List Event}
    {b : List Event × Option ℚ × Option PyErr}
    (h : e ∈ (afterReport nc step tevs b).1) :
    e ∈ tevs ∨ e ∈ b.1 ∨ e = .saveCkpt step b.2.1 false := by
  unfold afterReport at h
  split at h
  · rcases List.mem_append.1 h with h1 | h1
    exacts [Or.inl h1, Or.inr (Or.inl h1)]
  · rcases mem_ckptBranch_events h with h1 | h1
    · rcases List.mem_append.1 h1 with h2 | h2
      exacts [Or.inl h2, Or.inr (Or.inl h2)]
    · exact Or.inr (Or.inr h1)

/-- Any event of one loop iteration comes from the training step, the
reporting branch, or a periodic checkpoint write. -/
lemma mem_loopBody_events {nr nc : ℕ} {tl : ℕ → ℚ} {reports : ℕ → Report}
    {step : ℕ} {m : Option ℚ} {e : Event}
    (h : e ∈ (loopBody nr nc tl reports step m).1) :
    e ∈ trainEvents tl step ∨
    e ∈ (reportBranch step (tl step) (reports step) m).1 ∨
    (∃ ml, e = .saveCkpt step ml false) := by
  unfold loopBody at h
  split at h
  · rcases mem_ckptBranch_events h with h1 | h1
    exacts [Or.inl h1, Or.inr (Or.inr ⟨m, h1⟩)]
  · split at h
    · exact Or.inl h
    · split at h
      · rcases mem_afterReport_events h with h1 | h1 | h1
        exacts [Or.inl h1, Or.inr (Or.inl h1), Or.inr (Or.inr ⟨_, h1⟩)]
      · rcases mem_ckptBranch_events h with h1 | h1
        exacts [Or.inl h1, Or.inr (Or.inr ⟨m, h1⟩)]

/-- A scheduler step emitted by the reporting branch carries exactly the
ceil-quantized secondary metric of its own report. -/
lemma schedStep_mem_reportBranch {step : ℕ} {tloss : ℚ} {r : Report}
    {m : Option ℚ} {s : ℕ} {v : ℚ}
    (h : Event.schedStep s v ∈ (reportBranch step tloss r m).1) :
    s = step ∧ ∃ a, r.roc_auc = some a ∧ a ≠ 0 ∧ v = schedArg a := by
  unfold reportBranch at h
  rcases hr : r.roc_auc with _ | a
  · rw [hr] at h
    simp at h
  · rw [hr] at h
    by_cases ha : a = 0
    · simp [ha] at h
    · simp [ha] at h
      exact ⟨h.1, a, rfl, ha, h.2⟩

lemma schedStep_mem_loopBody {nr nc : ℕ} {tl : ℕ → ℚ} {reports : ℕ → Report}
    {step : ℕ} {m : Option ℚ} {s : ℕ} {v : ℚ}
    (h : Event.schedStep s v ∈ (loopBody nr nc tl reports step m).1) :
    s = step ∧ ∃ a, (reports step).roc_auc = some a ∧ a ≠ 0 ∧ v = schedArg a := by
  rcases mem_loopBody_events h with h1 | h1 | h1
  · exact absurd h1 (by simp [trainEvents])
  · exact schedStep_mem_reportBranch h1
  · rcases h1 with ⟨ml, h1⟩
    exact absurd h1 (by simp)

lemma schedStep_mem_runSteps {nr nc : ℕ} {tl : ℕ → ℚ} {reports : ℕ → Report}
    {steps : List ℕ} {m : Option ℚ} {s : ℕ} {v : ℚ}
    (h : Event.schedStep s v ∈ (runSteps nr nc tl reports steps m).1) :
    ∃ a, (reports s).roc_auc = some a ∧ a ≠ 0 ∧ v = schedArg a := by
  induction steps generalizing m with
  | nil => simp [runSteps] at h
  | cons step rest ih =>
    rcases hb : (loopBody nr nc tl reports step m).2.2 with _ | err
    · simp only [runSteps, hb] at h
      rcases List.mem_append.1 h with h1 | h1
      · obtain ⟨rfl, hex⟩ := schedStep_mem_loopBody h1
        exact hex
      · exact ih h1
    · simp only [runSteps, hb] at h
      obtain ⟨rfl, hex⟩ := schedStep_mem_loopBody h
      exact hex

lemma schedStep_mem_run {startStep maxSteps nr nc : ℕ} {tl : ℕ → ℚ}
    {reports : ℕ → Report} {m0 : Option ℚ} {s : ℕ} {v : ℚ}
    (h : Event.schedStep s v ∈
      (train_and_validate startStep maxSteps nr nc tl reports m0).1) :
    ∃ a, (reports s).roc_auc = some a ∧ a ≠ 0 ∧ v = schedArg a := by
  rcases hb : (runSteps nr nc tl reports
      (List.range' startStep (maxSteps - startStep)) m0).2.2 with _ | e <;>
    simp only [train_and_validate, hb] at h
  · rcases List.mem_append.1 h with h1 | h1
    · exact schedStep_mem_runSteps h1
    · simp at h1
  · exact schedStep_mem_runSteps h

/-- Evaluation of the source quantization at the reference point. -/
lemma schedArg_at_counterexample : schedArg (1231/10000) = 31/250 := by
  have h1 : (⌈(1231/10000 : ℚ) * 1000⌉ : ℤ) = 124 := by
    rw [Int.ceil_eq_iff] <;> norm_num
  rw [schedArg, h1]
  norm_num

/-- Evaluation of the spec-worded quantization at the reference point. -/
lemma specRound3_at_counterexample : specRound3 (1231/10000) = 123/1000 := by
  have h2 : (round ((1231/10000 : ℚ) * 1000) : ℤ) = 123 := by
    rw [round_eq, Int.floor_eq_iff] <;> norm_num
  rw [specRound3, h2]
  norm_num

/-- Claim C4 counterexample: at a reported score of 0.1231 the value
handed to the rate-decay policy is `ceil(0.1231·1000)/1000 = 0.124`,
which differs from the claimed round-to-3-decimals value `0.123`: the
source quantizes by ceiling, not by rounding. -/
theorem C4_counterexample :
    ((train_and_validate 0 6 5 5 (fun _ => 1)
        (fun _ => { loss := 2, roc_auc := some (1231/10000) }) none).1.filterMap
          schedOf = [(5, schedArg (1231/10000))]) ∧
    schedArg (1231/10000) = 31/250 ∧
    specRound3 (1231/10000) = 123/1000 ∧
    (31/250 : ℚ) ≠ 123/1000 := by
  refine ⟨?_, schedArg_at_counterexample, specRound3_at_counterexample, by norm_num⟩
  have hr : List.range' 0 (6 - 0) = [0, 1, 2, 3, 4, 5] := by decide
  simp only [train_and_validate, hr, runSteps, loopBody, afterReport, reportBranch,
    ckptBranch, trainEvents, minInf, ltInf]
  norm_num [schedOf, List.filterMap]

/-- Claim C4 (amended): every value handed to the rate-decay policy
during a run is the reported secondary score quantized by rounding UP
(ceiling) to 3 decimal digits, and the policy is configured with a
patience of 16 reporting intervals and a decay factor of 0.8 in `max`
mode. -/
theorem C4_sched_receives_ceil_quantized (startStep maxSteps nr nc : ℕ)
    (tl : ℕ → ℚ) (reports : ℕ → Report) (m0 : Option ℚ) (s : ℕ) (v : ℚ)
    (h : Event.schedStep s v ∈
      (train_and_validate startStep maxSteps nr nc tl reports m0).1) :
    (∃ a, (reports s).roc_auc = some a ∧ a ≠ 0 ∧ v = schedArg a) ∧
    plateauScheduler.patience = 16 ∧ plateauScheduler.factor = 8/10 ∧
    plateauScheduler.mode = "max" :=
  ⟨schedStep_mem_run h, rfl, rfl, rfl⟩

/-- Witness for C4 (amended): a concrete run containing a scheduler
step. -/
theorem C4_sched_receives_ceil_quantized_witness :
    (Event.schedStep 5 (schedArg (1231/10000)) ∈
      (train_and_validate 0 6 5 5 (fun _ => 1)
        (fun _ => { loss := 2, roc_auc := some (1231/10000) }) none).1) ∧
    ((∃ a, ((fun _ : ℕ => ({ loss := 2, roc_auc := some (1231/10000) } : Report)) 5).roc_auc
        = some a ∧ a ≠ 0 ∧ schedArg (1231/10000) = schedArg a) ∧
     plateauScheduler.patience = 16 ∧ plateauScheduler.factor = 8/10 ∧
     plateauScheduler.mode = "max") := by
  have hmem : Event.schedStep 5 (schedArg (1231/10000)) ∈
      (train_and_validate 0 6 5 5 (fun _ => 1)
        (fun _ => { loss := 2, roc_auc := some (1231/10000) }) none).1 := by
    have hr : List.range' 0 (6 - 0) = [0, 1, 2, 3, 4, 5] := by decide
    simp only [train_and_validate, hr, runSteps, loopBody, afterReport, reportBranch,
      ckptBranch, trainEvents, minInf, ltInf]
    norm_num
  exact ⟨hmem, C4_sched_receives_ceil_quantized 0 6 5 5 _ _ none 5 _ hmem⟩

lemma ckptBranch_state (nc step : ℕ) (acc : List Event) (m : Option ℚ) :
    (ckptBranch nc step acc m).2.1 = m := by
  unfold ckptBranch
  split
  · rfl
  · split <;> rfl

lemma bestWrites_append (l1 l2 : List Event) :
    bestWrites (l1 ++ l2) = bestWrites l1 ++ bestWrites l2 :=
  List.filterMap_append l1 l2 _

lemma bestWrites_trainEvents (tl : ℕ → ℚ) (step : ℕ) :
    bestWrites (trainEvents tl step) = [] := rfl

lemma bestWrites_ckptBranch (nc step : ℕ) (acc : List Event) (m : Option ℚ) :
    bestWrites (ckptBranch nc step acc m).1 = bestWrites acc := by
  unfold ckptBranch
  split
  · rfl
  · split
    · rw [bestWrites_append]
      simp [bestWrites]
    · rfl

lemma oltB_some_ltInf (v : ℚ) (m : Option ℚ) : oltB (some v) m = ltInf v m := by
  cases m <;> rfl

/-- The reporting branch either leaves the best slot and `min_loss`
untouched, or performs one best-tagged write of a strictly smaller
loss, which also becomes the new `min_loss`. -/
lemma reportBranch_best (step : ℕ) (tloss : ℚ) (r : Report) (m : Option ℚ) :
    (bestWrites (reportBranch step tloss r m).1 = [] ∧
      (reportBranch step tloss r m).2.1 = m) ∨
    (∃ l, bestWrites (reportBranch step tloss r m).1 = [some l] ∧
      (reportBranch step tloss r m).2.1 = some l ∧ oltB (some l) m = true) := by
  rcases hr : r.roc_auc with _ | a
  · left
    constructor <;> simp [reportBranch, hr, bestWrites]
  · cases hbest : ltInf r.loss m
    case false =>
      left
      constructor
      · by_cases ha : a = 0 <;> simp [reportBranch, hr, ha, bestWrites, hbest]
      · simp [reportBranch, hr, minInf, hbest]
    case true =>
      right
      refine ⟨r.loss, ?_, ?_, ?_⟩
      · by_cases ha : a = 0 <;>
          simp [reportBranch, hr, ha, bestWrites, hbest, minInf]
      · simp [reportBranch, hr, minInf, hbest]
      · rw [oltB_some_ltInf]
        exact hbest

lemma afterReport_best (nc step : ℕ) (tevs : List Event)
    (b : List Event × Option ℚ × Option PyErr) (htevs : bestWrites tevs = []) :
    bestWrites (afterReport nc step tevs b).1 = bestWrites b.1 ∧
    (afterReport nc step tevs b).2.1 = b.2.1 := by
  unfold afterReport
  split
  · constructor
    · rw [bestWrites_append, htevs]
      rfl
    · rfl
  · constructor
    · rw [bestWrites_ckptBranch, bestWrites_append, htevs]
      rfl
    · exact ckptBranch_state _ _ _ _

/-- One loop iteration either leaves the best slot and `min_loss`
untouched, or writes the best slot once with a strictly smaller new
`min_loss`. -/
lemma loopBody_best (nr nc : ℕ) (tl : ℕ → ℚ) (reports : ℕ → Report)
    (step : ℕ) (m : Option ℚ) :
    (bestWrites (loopBody nr nc tl reports step m).1 = [] ∧
      (loopBody nr nc tl reports step m).2.1 = m) ∨
    (∃ l, bestWrites (loopBody nr nc tl reports step m).1 = [some l] ∧
      (loopBody nr nc tl reports step m).2.1 = some l ∧ oltB (some l) m = true) := by
  unfold loopBody
  split
  · left
    exact ⟨by rw [bestWrites_ckptBranch]; rfl, ckptBranch_state _ _ _ _⟩
  · split
    · left
      exact ⟨rfl, rfl⟩
    · split
      · obtain ⟨h1, h2⟩ := afterReport_best nc step (trainEvents tl step)
          (reportBranch step (tl step) (reports step) m)
          (bestWrites_trainEvents tl step)
        rcases reportBranch_best step (tl step) (reports step) m with
          ⟨h3, h4⟩ | ⟨l, h3, h4, h5⟩
        · left
          exact ⟨by rw [h1, h3], by rw [h2, h4]⟩
        · right
          exact ⟨l, by rw [h1, h3], by rw [h2, h4], h5⟩
      · left
        exact ⟨by rw [bestWrites_ckptBranch]; rfl, ckptBranch_state _ _ _ _⟩

/-- Across any run segment, the values written to the best slot form a
strictly decreasing chain below the incoming `min_loss`. -/
lemma chain_bestWrites_runSteps (nr nc : ℕ) (tl : ℕ → ℚ) (reports : ℕ → Report)
    (steps : List ℕ) (m : Option ℚ) :
    List.Chain (fun a b => oltB b a = true) m
      (bestWrites (runSteps nr nc tl reports steps m).1) := by
  induction steps generalizing m with
  | nil => exact List.Chain.nil
  | cons step rest ih =>
    rcases hb : (loopBody nr nc tl reports step m).2.2 with _ | err <;>
      simp only [runSteps, hb]
    · rw [bestWrites_append]
      rcases loopBody_best nr nc tl reports step m with ⟨h1, h2⟩ | ⟨l, h1, h2, h3⟩
      · rw [h1, h2]
        simpa using ih m
      · rw [h1, h2]
        exact List.Chain.cons h3 (ih (some l))
    · rcases loopBody_best nr nc tl reports step m with ⟨h1, _⟩ | ⟨l, h1, _, h3⟩
      · rw [h1]
        exact List.Chain.nil
      · rw [h1]
        exact List.Chain.cons h3 List.Chain.nil

lemma bestWrites_run (st mx nr nc : ℕ) (tl : ℕ → ℚ) (reports : ℕ → Report)
    (m0 : Option ℚ) :
    bestWrites (train_and_validate st mx nr nc tl reports m0).1 =
      bestWrites (runSteps nr nc tl reports (List.range' st (mx - st)) m0).1 := by
  rcases hb : (runSteps nr nc tl reports (List.range' st (mx - st)) m0).2.2
      with _ | e <;>
    simp only [train_and_validate, hb]
  rw [bestWrites_append]
  simp [bestWrites]

lemma chain'_of_chain {R : Option ℚ → Option ℚ → Prop} {a : Option ℚ}
    {l : List (Option ℚ)} (h : List.Chain R a l) : List.Chain' R l := by
  cases h with
  | nil => exact List.chain'_nil
  | cons hr hc => exact hc

lemma oltB_le {a b : Option ℚ} (h : oltB a b = true) : oleB a b = true := by
  cases a <;> cases b
  · simp [oltB] at h
  · simp [oltB] at h
  · rfl
  · simp [oltB] at h
    simp [oleB]
    exact le_of_lt h

/-- Claim C1: constructing the orchestrator from a checkpoint with step
`s0` and configured `max_steps = m` is claimed to complete without error
and drive steps `[s0, s0 + m)`.  In the code, the resume branch (line
205) reads the attribute `max_step`, which is never assigned (line 152
assigns `max_steps`), so every construction from a checkpoint raises
`AttributeError` instead: the claim describes the evident intent, the
code has a typo. -/
theorem C1_resume_raises_attribute_error (b m r : ℤ) (c : Option ℤ)
    (ck : Checkpoint) :
    TrainModel.init b m r c (some ck) = Except.error PyErr.attributeError := rfl

/-- Claim C3 counterexample: constructing with `batch_size = 0` (≤ 0)
succeeds and stores the invalid value — no `ConfigurationError` is
raised, refuting the fail-fast claim. -/
theorem C3_counterexample :
    ∃ st, TrainModel.init 0 5 5 none none = Except.ok st ∧ st.batch_size ≤ 0 :=
  ⟨_, rfl, le_refl 0⟩

/-- Claim C3 (amended): the constructor performs no configuration
validation at all: for every batch size, max-steps and cadence values
(valid or not) construction succeeds and stores the given values
unchanged, with a fresh start step of 0 and `min_loss = +inf`; the
claimed invariant is not established. -/
theorem C3_no_validation (b m r : ℤ) (c : Option ℤ) :
    ∃ st, TrainModel.init b m r c none = Except.ok st ∧
      st.batch_size = b ∧ st.max_steps = m ∧ st.nth_step_report_stats = r ∧
      st.start_step = 0 ∧ st.min_loss = none :=
  ⟨_, rfl, rfl, rfl, rfl, rfl, rfl⟩

/-- Claim C2 counterexample: a run whose validation report lacks the
`roc_auc` key aborts with a `KeyError` escaping the reporting branch
(line 323 subscripts the dictionary without checking key membership),
refuting the claim that the run loop continues normally. -/
theorem C2_counterexample :
    (train_and_validate 0 6 5 5 (fun _ => 1)
        (fun _ => { loss := 2, roc_auc := none }) none).2.2
      = some PyErr.keyError := by decide

/-- Claim C2 (amended): when the report lacks the `roc_auc` key, the
plateau-controller step is indeed never reached that interval, but a
`KeyError` escapes the reporting branch (aborting the run) rather than
the loop continuing normally; `min_loss` is left unchanged. -/
theorem C2_missing_metric_raises (s : ℕ) (tloss : ℚ) (r : Report)
    (m : Option ℚ) (h : r.roc_auc = none) :
    (reportBranch s tloss r m).2.2 = some PyErr.keyError ∧
    (∀ v, Event.schedStep s v ∉ (reportBranch s tloss r m).1) ∧
    (reportBranch s tloss r m).2.1 = m := by
  refine ⟨?_, ?_, ?_⟩ <;> simp [reportBranch, h]

/-- Witness for C2 (amended) at a concrete report without `roc_auc`. -/
theorem C2_missing_metric_raises_witness :
    ((⟨2, none⟩ : Report).roc_auc = none) ∧
    (reportBranch 5 1 ⟨2, none⟩ none).2.2 = some PyErr.keyError ∧
    Event.schedStep 5 0 ∉ (reportBranch 5 1 ⟨2, none⟩ none).1 ∧
    (reportBranch 5 1 ⟨2, none⟩ none).2.1 = none :=
  ⟨rfl, (C2_missing_metric_raises 5 1 ⟨2, none⟩ none rfl).1,
   (C2_missing_metric_raises 5 1 ⟨2, none⟩ none rfl).2.1 0,
   (C2_missing_metric_raises 5 1 ⟨2, none⟩ none rfl).2.2⟩

/-- Claim C5 counterexample: a reporting interval can observe a
validation loss strictly smaller than the running best (here 2 < +inf)
and still not overwrite the best slot: when the report lacks the
`roc_auc` key, the `KeyError` of line 323 aborts the interval before the
best-checkpoint logic of lines 334-341 runs, so the whole run performs
no best-tagged write — refuting the claim's «overwritten if a strictly
smaller loss is observed» direction. -/
theorem C5_counterexample :
    (Event.validatePass 5 ∈ (train_and_validate 0 6 5 5 (fun _ => 1)
        (fun _ => { loss := 2, roc_auc := none }) none).1) ∧
    ltInf 2 none = true ∧
    bestWrites (train_and_validate 0 6 5 5 (fun _ => 1)
        (fun _ => { loss := 2, roc_auc := none }) none).1 = [] := by decide

/-- Claim C5 (amended): across every run the `min_loss` values written
to the best checkpoint slot are non-increasing (they are in fact
strictly decreasing); the overwrite-iff characterization holds at the
reporting intervals whose report carries the secondary-metric key (so
the branch completes): there, the best slot is overwritten iff the
observed validation loss is strictly smaller than the running best, in
which case the write records exactly that loss, which also becomes the
new `min_loss`.  (With the key absent, a smaller observed loss does not
overwrite the slot: the interval aborts first, see the
counterexample.) -/
theorem C5_best_slot_monotone (startStep maxSteps nr nc : ℕ) (tl : ℕ → ℚ)
    (reports : ℕ → Report) (m0 : Option ℚ) (s : ℕ) (tloss : ℚ) (r : Report)
    (m : Option ℚ) (h : r.roc_auc.isSome = true) :
    List.Chain' (fun a b => oleB b a = true)
      (bestWrites (train_and_validate startStep maxSteps nr nc tl reports m0).1) ∧
    ((∃ ml, Event.saveCkpt s ml true ∈ (reportBranch s tloss r m).1) ↔
      ltInf r.loss m = true) ∧
    (ltInf r.loss m = true →
      Event.saveCkpt s (some r.loss) true ∈ (reportBranch s tloss r m).1 ∧
      minInf r.loss m = some r.loss) := by
  obtain ⟨a, hr⟩ := Option.isSome_iff_exists.1 h
  refine ⟨?_, ⟨?_, ?_⟩, ?_⟩
  · rw [bestWrites_run]
    exact List.Chain'.imp (fun x y hxy => oltB_le hxy)
      (chain'_of_chain (chain_bestWrites_runSteps nr nc tl reports
        (List.range' startStep (maxSteps - startStep)) m0))
  · rintro ⟨ml, hml⟩
    cases hbest : ltInf r.loss m
    · by_cases ha : a = 0 <;> simp [reportBranch, hr, ha, hbest] at hml
    · rfl
  · intro hbest
    refine ⟨minInf r.loss m, ?_⟩
    by_cases ha : a = 0 <;> simp [reportBranch, hr, ha, hbest]
  · intro hbest
    constructor
    · by_cases ha : a = 0 <;> simp [reportBranch, hr, ha, hbest, minInf]
    · simp [minInf, hbest]

/-- Witness for C5 at a concrete run and a concrete reporting
interval. -/
theorem C5_best_slot_monotone_witness :
    ((⟨2, some 1⟩ : Report).roc_auc.isSome = true) ∧
    (List.Chain' (fun a b => oleB b a = true)
      (bestWrites (train_and_validate 0 2 5 5 (fun _ => 1)
        (fun _ => ⟨2, some 1⟩) none).1) ∧
    ((∃ ml, Event.saveCkpt 5 ml true ∈ (reportBranch 5 1 ⟨2, some 1⟩ none).1) ↔
      ltInf 2 none = true) ∧
    (ltInf 2 none = true →
      Event.saveCkpt 5 (some 2) true ∈ (reportBranch 5 1 ⟨2, some 1⟩ none).1 ∧
      minInf 2 none = some 2)) :=
  ⟨rfl, C5_best_slot_monotone 0 2 5 5 (fun _ => 1) (fun _ => ⟨2, some 1⟩) none
    5 1 ⟨2, some 1⟩ none rfl⟩

/-- The evaluation loop collects exactly the per-batch losses and the
per-batch prediction blocks, in the batch set's own order. -/
lemma evaluateLoop_eq {ι τ ρ : Type} (model : ι → List ρ)
    (criterion : List ρ → τ → ℚ) (bs : List (ι × τ)) :
    evaluateLoop model criterion bs =
      (bs.map fun b => criterion (model b.1) b.2, bs.map fun b => model b.1) := by
  induction bs with
  | nil => rfl
  | cons b rest ih =>
    rcases b with ⟨i, t⟩
    simp [evaluateLoop, ih]

/-- Claim C6: for every batch set of N ≥ 1 batches, `_evaluate_on_data`
processes the batches sequentially in their given order and returns the
average of the per-batch losses together with a prediction table that is
the concatenation of the per-batch prediction blocks in input order;
when the model emits one prediction row per target row, the table is
row-aligned with the concatenated targets. -/
theorem C6_evaluation_ordering {ι σ ρ : Type} (model : ι → List ρ)
    (criterion : List ρ → List σ → ℚ) (batches : List (ι × List σ))
    (hN : 1 ≤ batches.length)
    (hlen : ∀ b ∈ batches, (model b.1).length = b.2.length) :
    evaluate_on_data model criterion batches =
      some (((batches.map fun b => criterion (model b.1) b.2).sum /
          (batches.length : ℚ)),
        (batches.map fun b => model b.1).flatten) ∧
    ((batches.map fun b => model b.1).flatten).length =
      ((batches.map fun b => b.2).flatten).length := by
  constructor
  · obtain ⟨b0, rest, rfl⟩ : ∃ b0 rest, batches = b0 :: rest := by
      cases batches with
      | nil => simp at hN
      | cons b0 rest => exact ⟨b0, rest, rfl⟩
    simp [evaluate_on_data, evaluateLoop_eq]
  · rw [List.length_flatten, List.length_flatten, List.map_map, List.map_map]
    congr 1
    refine List.map_congr_left ?_
    intro b hb
    simpa using hlen b hb

/-- Witness for C6 on a one-batch set. -/
theorem C6_evaluation_ordering_witness :
    (1 ≤ ([((1 : ℕ), [(10 : ℕ)])]).length) ∧
    (∀ b ∈ [((1 : ℕ), [(10 : ℕ)])], ((fun i : ℕ => [i]) b.1).length = b.2.length) ∧
    evaluate_on_data (fun i : ℕ => [i]) (fun _ _ => (0 : ℚ)) [(1, [10])]
      = some (0, [1]) :=
  ⟨by decide, by decide,
   by simpa using (C6_evaluation_ordering (fun i : ℕ => [i])
     (fun _ _ => (0 : ℚ)) [(1, [10])] (by decide) (by decide)).1⟩

/-- Claim C10: a report carrying `roc_auc` with the falsy value `0`
takes the `NA` branch: the validation sink logs the sentinel (the
`none` payload), the plateau controller is not stepped, and no exception
is raised — presence is decided by the value's truthiness (line 323),
not by key membership. -/
theorem C10_falsy_metric_logs_na (s : ℕ) (tloss l : ℚ) (m : Option ℚ) :
    (reportBranch s tloss { loss := l, roc_auc := some 0 } m).1 =
      [.validatePass s, .trainLog s tloss, .validLog s l none,
       .saveCkpt s (minInf l m) (ltInf l m)] ∧
    (∀ v, Event.schedStep s v ∉
      (reportBranch s tloss { loss := l, roc_auc := some 0 } m).1) ∧
    (reportBranch s tloss { loss := l, roc_auc := some 0 } m).2.2 = none := by
  refine ⟨rfl, ?_, rfl⟩
  simp [reportBranch]

/-- Claim C7: with `max_steps = 10`, reporting cadence 5 and checkpoint
cadence 5, a fresh run (whose validation report at step 5 carries the
secondary-metric key) writes checkpoints exactly at steps 0, 5 and 5
(the step-5 reporting write plus the step-5 periodic write); step 5 is
the only validation pass, the only train-log line, the only
validation-log line, and the only best-tagged checkpoint evaluation; the
run completes without error. -/
theorem C7_end_to_end_scenario (tl : ℕ → ℚ) (reports : ℕ → Report) (l v : ℚ)
    (h : reports 5 = { loss := l, roc_auc := some v }) :
    ((train_and_validate 0 10 5 5 tl reports none).1.filterMap ckptOf).map
        (fun p => p.1) = [0, 5, 5] ∧
    (train_and_validate 0 10 5 5 tl reports none).1.filterMap valOf = [5] ∧
    (train_and_validate 0 10 5 5 tl reports none).1.filterMap tlogOf = [5] ∧
    (train_and_validate 0 10 5 5 tl reports none).1.filterMap vlogOf = [5] ∧
    (train_and_validate 0 10 5 5 tl reports none).1.filterMap bestOf = [5] ∧
    (train_and_validate 0 10 5 5 tl reports none).2.2 = none := by
  have hr : List.range' 0 (10 - 0) = [0, 1, 2, 3, 4, 5, 6, 7, 8, 9] := by decide
  by_cases hv : v = 0 <;>
    simp [train_and_validate, hr, runSteps, loopBody, afterReport, reportBranch,
      ckptBranch, trainEvents, minInf, ltInf, h, hv, ckptOf, valOf, tlogOf,
      vlogOf, bestOf, List.filterMap]

/-- Witness for C7 at a concrete report function. -/
theorem C7_end_to_end_scenario_witness :
    ((fun _ : ℕ => ({ loss := 2, roc_auc := some 1 } : Report)) 5 =
      { loss := 2, roc_auc := some 1 }) ∧
    ((train_and_validate 0 10 5 5 (fun _ => 1)
        (fun _ => { loss := 2, roc_auc := some 1 }) none).1.filterMap ckptOf).map
        (fun p => p.1) = [0, 5, 5] ∧
    (train_and_validate 0 10 5 5 (fun _ => 1)
        (fun _ => { loss := 2, roc_auc := some 1 }) none).1.filterMap valOf = [5] :=
  ⟨rfl,
   (C7_end_to_end_scenario (fun _ => 1)
     (fun _ => { loss := 2, roc_auc := some 1 }) 2 1 rfl).1,
   (C7_end_to_end_scenario (fun _ => 1)
     (fun _ => { loss := 2, roc_auc := some 1 }) 2 1 rfl).2.1⟩

lemma filterMap_ckptBranch {β : Type} (f : Event → Option β)
    (hfc : ∀ s ml b, f (.saveCkpt s ml b) = none) (nc step : ℕ)
    (acc : List Event) (m : Option ℚ) :
    (ckptBranch nc step acc m).1.filterMap f = acc.filterMap f := by
  unfold ckptBranch
  split
  · rfl
  · split
    · rw [List.filterMap_append]
      simp [hfc]
    · rfl

lemma filterMap_afterReport {β : Type} (f : Event → Option β)
    (hfc : ∀ s ml b, f (.saveCkpt s ml b) = none) (nc step : ℕ)
    (tevs : List Event) (b : List Event × Option ℚ × Option PyErr) :
    (afterReport nc step tevs b).1.filterMap f =
      tevs.filterMap f ++ b.1.filterMap f := by
  unfold afterReport
  split
  · rw [List.filterMap_append]
  · rw [filterMap_ckptBranch f hfc, List.filterMap_append]

lemma filterMap_reportBranch_none {β : Type} (f : Event → Option β)
    (hfv : ∀ s, f (.validatePass s) = none)
    (hft : ∀ s l, f (.trainLog s l) = none)
    (hfl : ∀ s l a, f (.validLog s l a) = none)
    (hfs : ∀ s v, f (.schedStep s v) = none)
    (hfc : ∀ s ml b, f (.saveCkpt s ml b) = none)
    (step : ℕ) (tloss : ℚ) (r : Report) (m : Option ℚ) :
    (reportBranch step tloss r m).1.filterMap f = [] := by
  rcases hr : r.roc_auc with _ | a
  · simp [reportBranch, hr, List.filterMap, hfv, hft]
  · by_cases ha : a = 0 <;>
      simp [reportBranch, hr, ha, List.filterMap, hfv, hft, hfl, hfs, hfc]

/-- Every loop iteration contributes to a training-only projection
exactly what its single training step contributes. -/
lemma filterMap_loopBody_train {β : Type} (f : Event → Option β)
    (hfv : ∀ s, f (.validatePass s) = none)
    (hft : ∀ s l, f (.trainLog s l) = none)
    (hfl : ∀ s l a, f (.validLog s l a) = none)
    (hfs : ∀ s v, f (.schedStep s v) = none)
    (hfc : ∀ s ml b, f (.saveCkpt s ml b) = none)
    (nr nc : ℕ) (tl : ℕ → ℚ) (reports : ℕ → Report) (step : ℕ) (m : Option ℚ) :
    (loopBody nr nc tl reports step m).1.filterMap f =
      (trainEvents tl step).filterMap f := by
  unfold loopBody
  split
  · exact filterMap_ckptBranch f hfc nc step _ m
  · split
    · rfl
    · split
      · rw [filterMap_afterReport f hfc,
          filterMap_reportBranch_none f hfv hft hfl hfs hfc, List.append_nil]
      · exact filterMap_ckptBranch f hfc nc step _ m

/-- A completed run segment performs exactly one optimizer update per
step, in step order, and returns exactly one scalar loss per step. -/
lemma runSteps_train_projections (nr nc : ℕ) (tl : ℕ → ℚ)
    (reports : ℕ → Report) (steps : List ℕ) (m : Option ℚ)
    (hok : (runSteps nr nc tl reports steps m).2.2 = none) :
    (runSteps nr nc tl reports steps m).1.filterMap optOf = steps ∧
    (runSteps nr nc tl reports steps m).1.filterMap lossOf = steps.map tl := by
  induction steps generalizing m with
  | nil => exact ⟨rfl, rfl⟩
  | cons step rest ih =>
    rcases hb : (loopBody nr nc tl reports step m).2.2 with _ | err
    · simp only [runSteps, hb] at hok ⊢
      obtain ⟨ih1, ih2⟩ := ih _ hok
      rw [List.filterMap_append, List.filterMap_append, ih1, ih2,
        filterMap_loopBody_train optOf (fun _ => rfl) (fun _ _ => rfl)
          (fun _ _ _ => rfl) (fun _ _ => rfl) (fun _ _ _ => rfl),
        filterMap_loopBody_train lossOf (fun _ => rfl) (fun _ _ => rfl)
          (fun _ _ _ => rfl) (fun _ _ => rfl) (fun _ _ _ => rfl)]
      exact ⟨rfl, rfl⟩
    · simp only [runSteps, hb] at hok
      exact Option.noConfusion hok

lemma run_err_eq (st mx nr nc : ℕ) (tl : ℕ → ℚ) (reports : ℕ → Report)
    (m0 : Option ℚ) :
    (train_and_validate st mx nr nc tl reports m0).2.2 =
      (runSteps nr nc tl reports (List.range' st (mx - st)) m0).2.2 := by
  rcases hb : (runSteps nr nc tl reports (List.range' st (mx - st)) m0).2.2
      with _ | e <;>
    simp [train_and_validate, hb]

lemma filterMap_run {β : Type} (f : Event → Option β)
    (hf : f .finalizeSampler = none) (st mx nr nc : ℕ) (tl : ℕ → ℚ)
    (reports : ℕ → Report) (m0 : Option ℚ) :
    (train_and_validate st mx nr nc tl reports m0).1.filterMap f =
      (runSteps nr nc tl reports (List.range' st (mx - st)) m0).1.filterMap f := by
  rcases hb : (runSteps nr nc tl reports (List.range' st (mx - st)) m0).2.2
      with _ | e <;>
    simp only [train_and_validate, hb]
  rw [List.filterMap_append]
  simp [hf]

/-- Claim C8: in a run that completes, every loop iteration over
`[start_step, max_steps)` performs exactly one training step with
exactly one optimizer update and yields one scalar loss, so the
optimizer updates happen exactly at the steps of
`range(start_step, max_steps)` and the loss sequence has length
`max_steps - start_step`. -/
theorem C8_one_update_per_step (startStep maxSteps nr nc : ℕ) (tl : ℕ → ℚ)
    (reports : ℕ → Report) (m0 : Option ℚ)
    (hok : (train_and_validate startStep maxSteps nr nc tl reports m0).2.2 = none) :
    (train_and_validate startStep maxSteps nr nc tl reports m0).1.filterMap optOf
      = List.range' startStep (maxSteps - startStep) ∧
    (train_and_validate startStep maxSteps nr nc tl reports m0).1.filterMap lossOf
      = (List.range' startStep (maxSteps - startStep)).map tl ∧
    ((train_and_validate startStep maxSteps nr nc tl reports m0).1.filterMap
        lossOf).length = maxSteps - startStep := by
  rw [run_err_eq] at hok
  obtain ⟨h1, h2⟩ := runSteps_train_projections nr nc tl reports
    (List.range' startStep (maxSteps - startStep)) m0 hok
  rw [filterMap_run optOf rfl, filterMap_run lossOf rfl, h1, h2]
  refine ⟨rfl, rfl, ?_⟩
  rw [List.length_map, List.length_range']

/-- Witness for C8 on a short concrete run. -/
theorem C8_one_update_per_step_witness :
    ((train_and_validate 0 3 5 5 (fun _ => 1)
        (fun _ => { loss := 2, roc_auc := some 1 }) none).2.2 = none) ∧
    (train_and_validate 0 3 5 5 (fun _ => 1)
        (fun _ => { loss := 2, roc_auc := some 1 }) none).1.filterMap optOf
      = List.range' 0 (3 - 0) :=
  ⟨by decide,
   (C8_one_update_per_step 0 3 5 5 (fun _ => 1)
     (fun _ => { loss := 2, roc_auc := some 1 }) none (by decide)).1⟩

/-- Claim C9: on a fresh run with any positive checkpoint cadence and at
least one step, the first checkpoint written is at step 0, is not tagged
best, and persists `min_loss = +inf` (the `none` of the fresh state),
because `0 % c == 0` for every positive `c` while the reporting branch
requires `step != 0`. -/
theorem C9_step0_checkpoint (maxSteps nr nc : ℕ) (tl : ℕ → ℚ)
    (reports : ℕ → Report) (hc : nc ≠ 0) (hm : 1 ≤ maxSteps) :
    ((train_and_validate 0 maxSteps nr nc tl reports none).1.filterMap
        ckptOf).head? = some (0, none, false) := by
  obtain ⟨k, rfl⟩ : ∃ k, maxSteps = k + 1 :=
    ⟨maxSteps - 1, (Nat.succ_pred_eq_of_pos hm).symm⟩
  rw [filterMap_run ckptOf rfl]
  have h0 : List.range' 0 (k + 1 - 0) = 0 :: List.range' 1 k := by
    rw [Nat.sub_zero, List.range'_succ]
  rw [h0]
  have hlb : loopBody nr nc tl reports 0 none =
      (trainEvents tl 0 ++ [.saveCkpt 0 none false], none, none) := by
    unfold loopBody ckptBranch
    simp [hc]
  simp only [runSteps, hlb]
  simp [List.filterMap_append, ckptOf, trainEvents, List.filterMap]

/-- Witness for C9 at a concrete one-step run. -/
theorem C9_step0_checkpoint_witness :
    ((5 : ℕ) ≠ 0 ∧ 1 ≤ 1) ∧
    ((train_and_validate 0 1 7 5 (fun _ => 1)
        (fun _ => { loss := 2, roc_auc := some 1 }) none).1.filterMap
        ckptOf).head? = some (0, none, false) :=
  ⟨⟨by decide, le_refl 1⟩,
   C9_step0_checkpoint 1 7 5 (fun _ => 1)
     (fun _ => { loss := 2, roc_auc := some 1 }) (by decide) (le_refl 1)⟩

end Selene
